import Mathlib

/-!
Verification of the singmania karaoke core against its specification.

The development shallowly embeds three pieces of the source:
  * the UltraStar chart parser and time model (`src/app/utils/ultrastarParser.ts`),
  * the autocorrelation pitch detector and median smoother
    (`src/app/utils/pitchUtils.ts`, `src/app/composables/usePitchDetector.ts`),
  * the scoring engine and rank derivation
    (`useScoring` in `src/app/pages/index.vue`, `finalRank` in
    `src/app/components/KaraokePlayer.vue`).

Modelling conventions:
  * JavaScript numbers are modelled as exact rationals extended with the
    special values NaN, +Infinity and -Infinity (`JSNum`), with JS division,
    multiplication, addition and comparison semantics.  Double rounding is
    not modelled; every concrete computation appearing in a theorem below is
    far from any rounding boundary.
  * Strings are processed as lists of characters with helper functions that
    model the JavaScript string methods used by the source (split, trim,
    startsWith, endsWith, first-occurrence replace, parseInt, parseFloat).
    `parseInt`/`parseFloat` are modelled for optionally signed decimal
    literals (no exponents), which covers every numeric field of the chart
    format; an unparsable string yields NaN exactly as in JS.
-/

/-- JavaScript number: an exact rational, or one of the IEEE special values
NaN, +Infinity, -Infinity. -/
inductive JSNum where
  | num (q : ℚ)
  | nan
  | inf
  | ninf
deriving DecidableEq, Repr

namespace JSNum

/-- JS unary negation. -/
def neg : JSNum → JSNum
  | num q => num (-q)
  | nan => nan
  | inf => ninf
  | ninf => inf

/-- JS addition (`+`) on numbers. -/
def add : JSNum → JSNum → JSNum
  | num a, num b => num (a + b)
  | nan, _ => nan
  | _, nan => nan
  | inf, ninf => nan
  | ninf, inf => nan
  | inf, _ => inf
  | _, inf => inf
  | ninf, _ => ninf
  | _, ninf => ninf

/-- JS subtraction (`-`) on numbers. -/
def sub (a b : JSNum) : JSNum := add a (neg b)

/-- JS multiplication (`*`) on numbers. -/
def mul : JSNum → JSNum → JSNum
  | num a, num b => num (a * b)
  | nan, _ => nan
  | _, nan => nan
  | inf, inf => inf
  | inf, ninf => ninf
  | ninf, inf => ninf
  | ninf, ninf => inf
  | num a, inf => if a = 0 then nan else if 0 < a then inf else ninf
  | inf, num a => if a = 0 then nan else if 0 < a then inf else ninf
  | num a, ninf => if a = 0 then nan else if 0 < a then ninf else inf
  | ninf, num a => if a = 0 then nan else if 0 < a then ninf else inf

/-- JS division (`/`) on numbers: finite/0 gives NaN (for 0/0) or a signed
infinity, exactly as IEEE-754 division does in JavaScript. -/
def div : JSNum → JSNum → JSNum
  | num a, num b =>
      if b = 0 then (if a = 0 then nan else if 0 < a then inf else ninf)
      else num (a / b)
  | nan, _ => nan
  | _, nan => nan
  | inf, inf => nan
  | inf, ninf => nan
  | ninf, inf => nan
  | ninf, ninf => nan
  | num _, inf => num 0
  | num _, ninf => num 0
  | inf, num b => if 0 ≤ b then inf else ninf
  | ninf, num b => if 0 ≤ b then ninf else inf

/-- JS `<` comparison: any comparison involving NaN is false. -/
def ltB : JSNum → JSNum → Bool
  | nan, _ => false
  | _, nan => false
  | num a, num b => a < b
  | num _, inf => true
  | num _, ninf => false
  | inf, _ => false
  | ninf, ninf => false
  | ninf, _ => true

/-- A JSNum is finite when it is an actual rational. -/
def isFinite : JSNum → Bool
  | num _ => true
  | _ => false

end JSNum

/-! ## JavaScript string helpers (over `List Char`) -/

/-- Character strings as used by the embedded parser. -/
abbrev Str := List Char

/-- Split a character list on every occurrence of a separator character,
keeping empty groups, like JS `String.prototype.split` with a one-character
separator. -/
def splitChar (sep : Char) : Str → List Str
  | [] => [[]]
  | c :: cs =>
      match splitChar sep cs with
      | [] => if c = sep then [[], []] else [[c]]
      | g :: gs => if c = sep then [] :: g :: gs else (c :: g) :: gs

/-- JS `startsWith` with a one-character prefix argument. -/
def startsWithChar (c : Char) : Str → Bool
  | [] => false
  | x :: _ => x = c

/-- JS `endsWith` with a one-character argument. -/
def endsWithChar (c : Char) (l : Str) : Bool :=
  match l.getLast? with
  | some x => x = c
  | none => false

/-- Whitespace characters recognised by the model of JS `trim` (the source
only ever trims ASCII whitespace). -/
def isJsWhitespace (c : Char) : Bool :=
  c = ' ' || c = '\t' || c = '\n' || c = '\r'

/-- JS `trim`: drop leading and trailing whitespace. -/
def trimChars (l : Str) : Str :=
  ((l.dropWhile isJsWhitespace).reverse.dropWhile isJsWhitespace).reverse

/-- JS `replace` with a plain (non-regex) pattern replaces only the first
occurrence; the source uses it as `.replace(',', '.')`. -/
def replaceFirstChar (pat rep : Char) : Str → Str
  | [] => []
  | c :: cs => if c = pat then rep :: cs else c :: replaceFirstChar pat rep cs

/-- JS string join with a separator, `Array.prototype.join(' ')`. -/
def joinSep (sep : Char) : List Str → Str
  | [] => []
  | [g] => g
  | g :: gs => g ++ sep :: joinSep sep gs

/-- JS `x || d` for strings: the empty string is falsy. -/
def jsOrStr (s d : Str) : Str := if s = [] then d else s

/-- Numeric value of a run of decimal digits. -/
def digitsVal (l : Str) : ℕ :=
  l.foldl (fun acc c => 10 * acc + (c.toNat - '0'.toNat)) 0

/-- Model of JS `parseInt` (radix 10) for the inputs the chart format can
produce: skip leading whitespace, optional sign, then a maximal run of
decimal digits; NaN when no digit is found. -/
def jsParseInt (s : Str) : JSNum :=
  let s1 := s.dropWhile isJsWhitespace
  let (sgn, s2) : ℤ × Str :=
    match s1 with
    | '-' :: rest => (-1, rest)
    | '+' :: rest => (1, rest)
    | rest => (1, rest)
  let digits := s2.takeWhile (·.isDigit)
  if digits = [] then JSNum.nan
  else JSNum.num ((sgn * (digitsVal digits : ℤ) : ℤ) : ℚ)

/-- Fractional value of a run of decimal digits read after a decimal dot. -/
def fracVal (l : Str) : ℚ :=
  (digitsVal l : ℚ) / ((10 : ℚ) ^ l.length)

/-- Model of JS `parseFloat` for optionally signed decimal literals (no
exponent part, which the chart format never uses): skip leading whitespace,
optional sign, integer digits, optional dot and fraction digits; NaN when no
digit is found at all. -/
def jsParseFloat (s : Str) : JSNum :=
  let s1 := s.dropWhile isJsWhitespace
  let (sgn, s2) : ℚ × Str :=
    match s1 with
    | '-' :: rest => (-1, rest)
    | '+' :: rest => (1, rest)
    | rest => (1, rest)
  let intDigits := s2.takeWhile (·.isDigit)
  let s3 := s2.drop intDigits.length
  let fracDigits : Str :=
    match s3 with
    | '.' :: rest => rest.takeWhile (·.isDigit)
    | _ => []
  if intDigits = [] ∧ fracDigits = [] then JSNum.nan
  else JSNum.num (sgn * ((digitsVal intDigits : ℚ) + fracVal fracDigits))

/-! ## Chart data model (`src/app/utils/ultrastarParser.ts`) -/

/-- One parsed chart note (`UltraStarNote` in the source).  `type` keeps the
raw first field of the note line; `startTime`/`endTime` are filled in by the
time-computation pass, mirroring the optional fields of the source. -/
structure UltraStarNote where
  type : Str
  startBeat : JSNum
  duration : JSNum
  pitch : JSNum
  text : Str
  isExtension : Bool
  startTime : Option JSNum := none
  endTime : Option JSNum := none
deriving DecidableEq, Repr

/-- A word: a run of notes forming one lyric unit (`UltraStarWord`). -/
structure UltraStarWord where
  notes : List UltraStarNote
deriving DecidableEq, Repr

/-- A lyric line of words (`UltraStarLine`); `player` is the optional duet
player tag. -/
structure UltraStarLine where
  words : List UltraStarWord
  startTime : Option JSNum := none
  endTime : Option JSNum := none
  player : Option ℕ := none
deriving DecidableEq, Repr

/-- Metadata map: JS object of string keys, modelled as an association list
that keeps first-insertion order and overwrites values in place. -/
abbrev Metadata := List (Str × Str)

/-- `metadata[key] = value` on a JS object. -/
def setKey (k v : Str) : Metadata → Metadata
  | [] => [(k, v)]
  | (k', v') :: rest => if k' = k then (k, v) :: rest else (k', v') :: setKey k v rest

/-- `metadata[key]` lookup on a JS object. -/
def getKey (k : Str) : Metadata → Option Str
  | [] => none
  | (k', v') :: rest => if k' = k then some v' else getKey k rest

/-- A parsed song (`UltraStarSong`). -/
structure UltraStarSong where
  metadata : Metadata
  lines : List UltraStarLine
deriving DecidableEq, Repr

/-- The parser's loop state: accumulated metadata and lines, the line and
word currently being built, the active player and the pending
`previousNoteEndedWithSpace` flag. -/
structure ParseState where
  metadata : Metadata
  lines : List UltraStarLine
  currentLine : UltraStarLine
  currentWord : List UltraStarNote
  currentPlayer : ℕ
  prevSpace : Bool
deriving Repr

/-- Initial loop state: `currentLine = { words: [], player: 1 }`,
`currentPlayer = 1`. -/
def initState : ParseState :=
  { metadata := []
    lines := []
    currentLine := { words := [], player := some 1 }
    currentWord := []
    currentPlayer := 1
    prevSpace := false }

/-- Push the pending word into the current line if it is non-empty
(the `if (currentWord.notes.length > 0)` flush that the source repeats in
the `P`, `-` and `E` branches). -/
def flushWord (s : ParseState) : ParseState :=
  if s.currentWord ≠ [] then
    { s with
        currentLine := { s.currentLine with words := s.currentLine.words ++ [⟨s.currentWord⟩] }
        currentWord := [] }
  else s

/-- Process one raw chart line, mirroring the branch structure of the parse
loop of `parseUltraStar` (lines 39-134 of the source). -/
def processLine (s : ParseState) (l : Str) : ParseState :=
  if startsWithChar '#' l then
    -- metadata: `#KEY:value`, remaining colons belong to the value
    let ps := splitChar ':' (l.drop 1)
    let key := ps.headD []
    if key ≠ [] then
      { s with metadata := setKey (key.map Char.toUpper) (trimChars (joinSep ':' ps.tail)) s.metadata }
    else s
  else if startsWithChar 'P' l then
    -- player switch `P1` / `P2`; other `P…` lines are ignored
    let p := jsParseInt (l.drop 1)
    if p = JSNum.num 1 ∨ p = JSNum.num 2 then
      let s1 := flushWord s
      let s2 :=
        if s1.currentLine.words ≠ [] then
          { s1 with
              lines := s1.lines ++ [s1.currentLine]
              currentLine := { words := [], player := some s1.currentPlayer } }
        else s1
      let newP : ℕ := if p = JSNum.num 1 then 1 else 2
      { s2 with currentPlayer := newP, currentLine := { words := [], player := some newP } }
    else s
  else if startsWithChar ':' l || startsWithChar '*' l || startsWithChar 'F' l
      || startsWithChar 'R' l || startsWithChar 'G' l then
    -- note line: `type startBeat duration pitch text…`
    let parts := splitChar ' ' l
    let type := parts.headD []
    let startBeat := jsParseInt (jsOrStr (parts.getD 1 []) ['0'])
    let duration := jsParseInt (jsOrStr (parts.getD 2 []) ['0'])
    let pitch := jsParseInt (jsOrStr (parts.getD 3 []) ['0'])
    let text0 := joinSep ' ' (parts.drop 4)
    let hasLeadingSpace := startsWithChar ' ' text0
    let hasTrailingSpace := endsWithChar ' ' text0
    let isExtension := startsWithChar '~' text0
    let text1 := if isExtension then text0.drop 1 else text0
    let text2 := if text1.contains '~' then text1.filter (· ≠ '~') else text1
    -- `note.text = note.text.trim()` happens after insertion; the stored
    -- note therefore carries the trimmed text
    let note : UltraStarNote :=
      { type := type, startBeat := startBeat, duration := duration, pitch := pitch
        text := trimChars text2, isExtension := isExtension }
    let s1 :=
      if hasLeadingSpace || s.prevSpace
          || (s.currentLine.words = [] ∧ s.currentWord = []) then
        let cl :=
          if s.currentWord ≠ [] then
            { s.currentLine with words := s.currentLine.words ++ [⟨s.currentWord⟩] }
          else s.currentLine
        { s with currentLine := cl, currentWord := [note] }
      else
        { s with currentWord := s.currentWord ++ [note] }
    { s1 with prevSpace := hasTrailingSpace }
  else if startsWithChar '-' l then
    -- line break: flush word, push line if non-empty, reset current line
    let s1 := flushWord s
    let s2 :=
      if s1.currentLine.words ≠ [] then { s1 with lines := s1.lines ++ [s1.currentLine] }
      else s1
    { s2 with currentLine := { words := [], player := some s2.currentPlayer } }
  else if startsWithChar 'E' l then
    -- end of song marker: same flush as a line break
    let s1 := flushWord s
    let s2 :=
      if s1.currentLine.words ≠ [] then { s1 with lines := s1.lines ++ [s1.currentLine] }
      else s1
    { s2 with currentLine := { words := [], player := some s2.currentPlayer } }
  else s

/-- Post-loop flush for files not ending in `E` or `-` (source lines
137-142). -/
def finishParse (s : ParseState) : ParseState :=
  let s1 := flushWord s
  if s1.currentLine.words ≠ [] then { s1 with lines := s1.lines ++ [s1.currentLine] }
  else s1

/-- `metadata['BPM']?.replace(',', '.') || '0'` (and the same for GAP):
look a key up, normalise the first comma to a dot, fall back to `"0"` when
the key is absent or the value is empty. -/
def metaNumStr (m : Metadata) (k : Str) : Str :=
  match getKey k m with
  | none => ['0']
  | some v => jsOrStr (replaceFirstChar ',' '.' v) ['0']

/-- Note time formula of the source (lines 158-159):
`(beat * 60) / (bpm * 4) + gap / 1000`, in JS arithmetic. -/
def noteTimeJS (bpm gap beat : JSNum) : JSNum :=
  JSNum.add (JSNum.div (JSNum.mul beat (JSNum.num 60)) (JSNum.mul bpm (JSNum.num 4)))
    (JSNum.div gap (JSNum.num 1000))

/-- Fill in a note's absolute times from BPM and GAP. -/
def timeNote (bpm gap : JSNum) (n : UltraStarNote) : UltraStarNote :=
  let endBeat := JSNum.add n.startBeat n.duration
  { n with
      startTime := some (noteTimeJS bpm gap n.startBeat)
      endTime := some (noteTimeJS bpm gap endBeat) }

/-- Fill in the times of every note of a line, then compute the line's
start/end as the running min/max of the source (`lineStart` starts at
Infinity, `lineEnd` at 0; a NaN time updates neither, because every JS
comparison with NaN is false). -/
def timeLine (bpm gap : JSNum) (l : UltraStarLine) : UltraStarLine :=
  let ws := l.words.map (fun w => UltraStarWord.mk (w.notes.map (timeNote bpm gap)))
  let bounds := (ws.flatMap (·.notes)).foldl
    (fun (acc : JSNum × JSNum) n =>
      let acc1 := match n.startTime with
        | some t => if JSNum.ltB t acc.1 then (t, acc.2) else acc
        | none => acc
      match n.endTime with
      | some t => if JSNum.ltB acc1.2 t then (acc1.1, t) else acc1
      | none => acc1)
    (JSNum.inf, JSNum.num 0)
  { words := ws, startTime := some bounds.1, endTime := some bounds.2, player := l.player }

/-- The `(x || 0)` coercion the final sort applies to line start times:
`undefined` and NaN (both falsy) become 0. -/
def sortKeyOrZero : Option JSNum → JSNum
  | none => JSNum.num 0
  | some v => if v = JSNum.nan then JSNum.num 0 else v

/-- Stable insertion used to model JS's stable `Array.prototype.sort`:
an element is inserted after every already-placed element that does not
compare strictly greater. -/
def insertStable (le : α → α → Bool) (x : α) : List α → List α
  | [] => [x]
  | y :: ys => if le y x then y :: insertStable le x ys else x :: y :: ys

/-- Stable sort by repeated insertion (models JS stable sort with a
comparator; the comparator-order `le a b` below means "a does not come
strictly after b"). -/
def sortStable (le : α → α → Bool) (l : List α) : List α :=
  l.foldl (fun acc x => insertStable le x acc) []

/-- Line comparator of the final sort,
`(a.startTime || 0) - (b.startTime || 0)`: `le a b` holds when the
comparator result is ≤ 0 or NaN (NaN comparator results are treated as 0 by
the JS sort). -/
def lineLe (a b : UltraStarLine) : Bool :=
  !(JSNum.ltB (JSNum.num 0) (JSNum.sub (sortKeyOrZero a.startTime) (sortKeyOrZero b.startTime)))

/-- Split raw chart text into lines: `text.replace(/\r/g, '').split('\n')`. -/
def chartRawLines (text : Str) : List Str :=
  splitChar '\n' (text.filter (· ≠ '\r'))

/-- The BPM value of a raw-line list (the `bpm` local of the source's time
pass). -/
def rawsBpm (raws : List Str) : JSNum :=
  jsParseFloat (metaNumStr (finishParse (raws.foldl processLine initState)).metadata "BPM".data)

/-- The GAP value of a raw-line list. -/
def rawsGap (raws : List Str) : JSNum :=
  jsParseFloat (metaNumStr (finishParse (raws.foldl processLine initState)).metadata "GAP".data)

/-- Parse from a pre-split list of raw lines: run the loop, flush, compute
times and sort lines by start time. -/
def parseFromRaws (raws : List Str) : UltraStarSong :=
  let st := finishParse (raws.foldl processLine initState)
  { metadata := st.metadata
    lines := sortStable lineLe (st.lines.map (timeLine (rawsBpm raws) (rawsGap raws))) }

/-- `parseUltraStar` (the whole exported parser). -/
def parseUltraStar (text : Str) : UltraStarSong :=
  parseFromRaws (chartRawLines text)

/-- BPM value a chart text parses to. -/
def chartBpm (text : Str) : JSNum :=
  rawsBpm (chartRawLines text)

/-- GAP value a chart text parses to. -/
def chartGap (text : Str) : JSNum :=
  rawsGap (chartRawLines text)

/-- First note of the first line of a parsed song, used to state concrete
parsing facts. -/
def firstNote (song : UltraStarSong) : Option UltraStarNote :=
  match song.lines with
  | [] => none
  | l :: _ =>
      match l.words with
      | [] => none
      | w :: _ =>
          match w.notes with
          | [] => none
          | n :: _ => some n

/-! ## Pitch detector (`src/app/utils/pitchUtils.ts`, `autoCorrelate`) -/

/-- Sum of squared samples, the `rms += val * val` accumulation. -/
def sumSq (buf : List ℚ) : ℚ :=
  (buf.map (fun x => x * x)).sum

/-- Mean square of a buffer; the source's RMS is its square root, so
`RMS < 0.01` is equivalent to `meanSquare < 1/10000` for a non-empty
buffer. -/
def meanSquare (buf : List ℚ) : ℚ :=
  sumSq buf / buf.length

/-- The RMS gate `rms < 0.01` of the source, expressed on squares.  For an
empty buffer JS computes `sqrt(0/0) = NaN`, and `NaN < 0.01` is false, so
the gate never fires on an empty buffer. -/
def acGate (buf : List ℚ) : Bool :=
  buf.length != 0 && decide (sumSq buf * 10000 < (buf.length : ℚ))

/-- Number of indices `i` satisfying the JS loop bound `i < SIZE / 2`
(fractional division), i.e. `⌈SIZE/2⌉`. -/
def acHalf (n : ℕ) : ℕ := (n + 1) / 2

/-- Forward trim scan of the source: first index `i` in `[0, SIZE/2)` with
`|buf[i]| < 0.15`, defaulting to 0. -/
def acR1 (buf : List ℚ) : ℕ :=
  ((List.range (acHalf buf.length)).find?
    (fun i => decide (|buf.getD i 0| < 3/20))).getD 0

/-- Backward trim scan of the source: `SIZE - i` for the first offset `i` in
`[1, SIZE/2)` with `|buf[SIZE - i]| < 0.15`, defaulting to `SIZE - 1`. -/
def acR2 (buf : List ℚ) : ℕ :=
  match (List.range' 1 (acHalf buf.length - 1)).find?
      (fun i => decide (|buf.getD (buf.length - i) 0| < 3/20)) with
  | some i => buf.length - i
  | none => buf.length - 1

/-- `buf.slice(r1, r2)`: the elements with indices in `[r1, r2)`. -/
def acTrim (buf : List ℚ) : List ℚ :=
  (buf.take (acR2 buf)).drop (acR1 buf)

/-- Autocorrelation `c[i] = Σ_{j < SIZE - i} buf[j] * buf[j+i]` of the
source (out-of-range accesses read as 0 via `|| 0`). -/
def acCorr (buf : List ℚ) (i : ℕ) : ℚ :=
  ((List.range (buf.length - i)).map (fun j => buf.getD j 0 * buf.getD (j + i) 0)).sum

/-- The descent walk `let d = 0; while (c[d] > c[d+1]) d++` of the source:
the least index at which the walk stops; `c[d+1]` is `undefined` beyond the
array and every JS comparison with `undefined` is false, so the walk always
stops by index `SIZE - 1`. -/
def acDescent (buf : List ℚ) : ℕ :=
  ((List.range buf.length).find?
    (fun k => !(decide (k + 1 < buf.length) && decide (acCorr buf (k + 1) < acCorr buf k)))).getD 0

/-- The peak search of the source: fold `if (c[i] > maxval)` over
`i ∈ [d, SIZE)` starting from `maxval = -1, maxpos = -1`. -/
def acPeak (buf : List ℚ) (d : ℕ) : ℚ × ℤ :=
  (List.range' d (buf.length - d)).foldl
    (fun acc i => if acCorr buf i > acc.1 then (acCorr buf i, (i : ℤ)) else acc)
    (-1, -1)

/-- Everything after the trim: autocorrelate, walk down from the zero-lag
peak, find the maximum, reject boundary peaks, refine by parabolic
interpolation, return `sampleRate / T0`. -/
def acAfterTrim (buf : List ℚ) (sampleRate : ℚ) : JSNum :=
  let d := acDescent buf
  let maxpos := (acPeak buf d).2
  if maxpos < 1 ∨ (buf.length : ℤ) - 1 ≤ maxpos then JSNum.num (-1)
  else
    let x1 := acCorr buf (maxpos - 1).toNat
    let x2 := acCorr buf maxpos.toNat
    let x3 := acCorr buf (maxpos + 1).toNat
    let a := (x1 + x3 - 2 * x2) / 2
    let b := (x3 - x1) / 2
    let T0 : ℚ := if a ≠ 0 then (maxpos : ℚ) - b / (2 * a) else (maxpos : ℚ)
    JSNum.div (JSNum.num sampleRate) (JSNum.num T0)

/-- `autoCorrelate` of `src/app/utils/pitchUtils.ts`: RMS gate, trim, length
check, then the autocorrelation peak search. -/
def autoCorrelate (buf : List ℚ) (sampleRate : ℚ) : JSNum :=
  if acGate buf then JSNum.num (-1)
  else
    let trimmed := acTrim buf
    if trimmed.length < 2 then JSNum.num (-1)
    else acAfterTrim trimmed sampleRate

/-- Trim as described by the specification sentence under verification: the
forward and backward scans cover the whole buffer (forward over all indices,
backward over all offsets from the end), not just its first and last half. -/
def acR1Claim (buf : List ℚ) : ℕ :=
  ((List.range buf.length).find?
    (fun i => decide (|buf.getD i 0| < 3/20))).getD 0

/-- Backward whole-buffer scan of the specification sentence. -/
def acR2Claim (buf : List ℚ) : ℕ :=
  match (List.range' 1 buf.length).find?
      (fun i => decide (|buf.getD (buf.length - i) 0| < 3/20)) with
  | some i => buf.length - i
  | none => buf.length - 1

/-- The trim of the specification sentence. -/
def acTrimClaim (buf : List ℚ) : List ℚ :=
  (buf.take (acR2Claim buf)).drop (acR1Claim buf)

/-- `autoCorrelate` as the specification sentence describes it: identical
pipeline, but with the whole-buffer trim scans. -/
def autoCorrelateClaim (buf : List ℚ) (sampleRate : ℚ) : JSNum :=
  if acGate buf then JSNum.num (-1)
  else
    let trimmed := acTrimClaim buf
    if trimmed.length < 2 then JSNum.num (-1)
    else acAfterTrim trimmed sampleRate

/-! ## Median pitch smoother (`usePitchDetector.ts`, `getSmoothedPitch`) -/

/-- `PITCH_BUFFER_SIZE` of the source. -/
def PITCH_BUFFER_SIZE : ℕ := 3

/-- Ascending numeric sort, JS `sort((a, b) => a - b)` on numbers. -/
def sortAsc (l : List ℚ) : List ℚ :=
  sortStable (fun a b => decide (a ≤ b)) l

/-- One step of `getSmoothedPitch`: push the new value, evict the oldest
beyond capacity 3, and emit the raw value while fewer than 2 samples are
buffered, otherwise the middle element of the sorted buffer.  Returns the
new buffer and the emitted smoothed value. -/
def getSmoothedPitch (buffer : List ℚ) (newPitch : ℚ) : List ℚ × ℚ :=
  let b1 := buffer ++ [newPitch]
  let b2 := if PITCH_BUFFER_SIZE < b1.length then b1.drop 1 else b1
  if b2.length < 2 then (b2, newPitch)
  else
    let sorted := sortAsc b2
    let mid := (sorted.length - 1) / 2
    (b2, sorted.getD mid 0)

/-- Feed a list of raw pitches through the smoother starting from an empty
buffer; returns the emitted smoothed values in order. -/
def runSmoother (inputs : List ℚ) : List ℚ :=
  (inputs.foldl
    (fun (acc : List ℚ × List ℚ) p =>
      let r := getSmoothedPitch acc.1 p
      (r.1, acc.2 ++ [r.2]))
    ([], [])).2

/-! ## Scoring engine (`useScoring` in `src/app/pages/index.vue`) -/

/-- Difficulty configuration: points per note, pitch tolerance in
semitones, and the ok/good/excellent thresholds as fractions of the note
duration. -/
structure ScoringSettings where
  points : ℚ
  pitchTol : ℚ
  okT : ℚ
  goodT : ℚ
  excellentT : ℚ
deriving DecidableEq, Repr

/-- The `settings` computed property: the difficulty switch of the source
(`Freestyle`, `Fácil`, `SingStar!`/`Difícil`, `Normal`/default). -/
def scoringSettings (difficulty : String) : ScoringSettings :=
  if difficulty = "Freestyle" then
    { points := 0, pitchTol := 0, okT := 1, goodT := 1, excellentT := 1 }
  else if difficulty = "Fácil" then
    { points := 10, pitchTol := 2, okT := 1/5, goodT := 2/5, excellentT := 3/5 }
  else if difficulty = "SingStar!" ∨ difficulty = "Difícil" then
    { points := 30, pitchTol := 1/2, okT := 2/5, goodT := 3/5, excellentT := 17/20 }
  else
    { points := 20, pitchTol := 1, okT := 1/4, goodT := 1/2, excellentT := 3/4 }

/-- A note is golden when its type field is `*` or `G`. -/
def isGoldenType (type : Str) : Bool :=
  type = ['*'] || type = ['G']

/-- Grade tiers emitted as feedback by the source. -/
inductive Grade where
  | ok
  | good
  | excellent
  | perfect
deriving DecidableEq, Repr

/-- Result of finalizing one note: the points added to the score and the
feedback tier (none when the note scores 0). -/
structure ScoreResult where
  earned : ℚ
  feedback : Option Grade
deriving DecidableEq, Repr

/-- `scoreNote` of the source, as a function of the difficulty, the note's
type and duration, and the accumulated `sungDuration`: guard a
non-positive duration to 0.1, compute `percent`, then map it against the
thresholds; the good and ok tiers use `Math.floor(points * (2/3))` and
`Math.floor(points * (1/3))`.  (For the point values 0/10/20/30 that the
difficulty table produces, flooring the exact rational agrees with flooring
the JS double product.)  Freestyle difficulty only marks the note scored. -/
def scoreNote (difficulty : String) (type : Str) (noteDuration sungDuration : ℚ) :
    ScoreResult :=
  if difficulty = "Freestyle" then { earned := 0, feedback := none }
  else
    let dur := if 0 < noteDuration then noteDuration else 1/10
    let percent := sungDuration / dur
    let s := scoringSettings difficulty
    if s.excellentT ≤ percent then
      if isGoldenType type then { earned := s.points * 2, feedback := some Grade.perfect }
      else { earned := s.points, feedback := some Grade.excellent }
    else if s.goodT ≤ percent then
      { earned := ((⌊s.points * (2/3)⌋ : ℤ) : ℚ), feedback := some Grade.good }
    else if s.okT ≤ percent then
      { earned := ((⌊s.points * (1/3)⌋ : ℤ) : ℚ), feedback := some Grade.ok }
    else { earned := 0, feedback := none }

/-- Per-note accumulator (`NoteState` in the source). -/
structure NoteState where
  sungDuration : ℚ
  isScored : Bool
deriving DecidableEq, Repr

/-- The timing-relevant fields of one note as the scoring watcher reads
them. -/
structure ScoredNote where
  type : Str
  pitch : ℚ
  startTime : ℚ
  endTime : ℚ
deriving DecidableEq, Repr

/-- JS `x % 12` for a non-negative `x` (the operands are absolute values in
the source). -/
def mod12 (x : ℚ) : ℚ := x - 12 * ((⌊x / 12⌋ : ℤ) : ℚ)

/-- The hit test of the watcher: a Freestyle note or Freestyle difficulty
always hits; otherwise the circular semitone distance between the detected
pitch and the note pitch must be within the difficulty's tolerance. -/
def pitchHit (difficulty : String) (note : ScoredNote) (detected : ℚ) : Bool :=
  if note.type = ['F'] || difficulty = "Freestyle" then true
  else
    let pitchDiff := |detected - note.pitch|
    let octaveDiff := |mod12 pitchDiff|
    let normalizedDiff := min octaveDiff (12 - octaveDiff)
    decide (normalizedDiff ≤ (scoringSettings difficulty).pitchTol)

/-- `TRAILING_WINDOW` of the source. -/
def TRAILING_WINDOW : ℚ := 3/20

/-- One pass of the `currentTime` watcher body for a single note, given the
already-computed positive `dt`: accumulate capped singing time while the
note's window (with the trailing grace) contains `newTime`, then finalize
(mark scored) once `newTime` passes `endTime + 0.15`. -/
def tickNote (difficulty : String) (note : ScoredNote) (st : NoteState)
    (newTime dt : ℚ) (detected : Option ℚ) : NoteState :=
  if st.isScored then st
  else
    let noteDuration := note.endTime - note.startTime
    let st1 :=
      if note.startTime ≤ newTime ∧ newTime ≤ note.endTime + TRAILING_WINDOW then
        match detected with
        | some p =>
            if pitchHit difficulty note p then
              if st.sungDuration < noteDuration then
                { st with sungDuration := min (st.sungDuration + dt) noteDuration }
              else st
            else st
        | none => st
      else st
    if note.endTime + TRAILING_WINDOW < newTime then { st1 with isScored := true }
    else st1

/-- One observed sample of the scoring session: whether the player clock is
running, the new `currentTime`, and the detected pitch (if any). -/
structure TickSample where
  isPlaying : Bool
  newTime : ℚ
  detected : Option ℚ
deriving DecidableEq, Repr

/-- One step of the `currentTime` watcher: when paused only `lastTime` is
updated; a non-positive `dt` is ignored; otherwise the note ticks. -/
def watchStep (difficulty : String) (note : ScoredNote)
    (acc : ℚ × NoteState) (sample : TickSample) : ℚ × NoteState :=
  if !sample.isPlaying then (sample.newTime, acc.2)
  else
    let dt := sample.newTime - acc.1
    if dt ≤ 0 then (sample.newTime, acc.2)
    else (sample.newTime, tickNote difficulty note acc.2 sample.newTime dt sample.detected)

/-- Run a whole scoring session for one note: fold the watcher over the
sample stream, starting from `lastTime = t0` and a fresh accumulator. -/
def runSession (difficulty : String) (note : ScoredNote) (t0 : ℚ)
    (samples : List TickSample) : ℚ × NoteState :=
  samples.foldl (watchStep difficulty note) (t0, { sungDuration := 0, isScored := false })

/-! ## Note collection and player filter (`allNotes` in `useScoring`) -/

/-- Line filter of `allNotes`: a line is skipped when a player is selected,
the line is tagged, and the tags differ. -/
def keepLine (selectedPlayer : Option ℕ) (l : UltraStarLine) : Bool :=
  match selectedPlayer, l.player with
  | some sel, some p => p = sel
  | _, _ => true

/-- Notes a line contributes to `allNotes`: all of its notes that carry
computed times. -/
def lineNotes (l : UltraStarLine) : List UltraStarNote :=
  (l.words.flatMap (·.notes)).filter (fun n => n.startTime.isSome && n.endTime.isSome)

/-- Note comparator of `allNotes`, `a.startTime! - b.startTime!`. -/
def noteLe (a b : UltraStarNote) : Bool :=
  !(JSNum.ltB (JSNum.num 0)
      (JSNum.sub (a.startTime.getD (JSNum.num 0)) (b.startTime.getD (JSNum.num 0))))

/-- `allNotes`: flatten the notes of the lines passing the player filter,
then sort by start time. -/
def allNotes (selectedPlayer : Option ℕ) (lines : List UltraStarLine) : List UltraStarNote :=
  sortStable noteLe ((lines.filter (keepLine selectedPlayer)).flatMap lineNotes)

/-! ## Final rank (`finalRank` in `src/app/components/KaraokePlayer.vue`) -/

/-- `finalRank`: the fixed string `FREESTYLE` for Freestyle difficulty, `F`
when no points were achievable, otherwise fixed percentage bands over
`score / totalMaxScore`. -/
def finalRank (difficulty : String) (score totalMaxScore : ℚ) : String :=
  if difficulty = "Freestyle" then "FREESTYLE"
  else if totalMaxScore = 0 then "F"
  else
    let percentage := score / totalMaxScore
    if 19/20 ≤ percentage then "SS"
    else if 9/10 ≤ percentage then "S"
    else if 4/5 ≤ percentage then "A"
    else if 7/10 ≤ percentage then "B"
    else if 3/5 ≤ percentage then "C"
    else if 2/5 ≤ percentage then "D"
    else "F"

/-! ## Concrete inputs used by the theorems -/

/-- A line of chart text switches the active player when it starts with `P`
and the rest parses to 1 or 2. -/
def isPSwitchLine (l : Str) : Bool :=
  startsWithChar 'P' l &&
    (jsParseInt (l.drop 1) = JSNum.num 1 || jsParseInt (l.drop 1) = JSNum.num 2)

/-- Chart with BPM 200, GAP 0 and the note line `: 0 4 0 Hi`. -/
def chartBpm200 : Str := ("#BPM:200\n#GAP:0\n: 0 4 0 Hi\nE").data

/-- The same chart with GAP raised to 1000 ms. -/
def chartGap1000 : Str := ("#BPM:200\n#GAP:1000\n: 0 4 0 Hi\nE").data

/-- Chart with no BPM metadata (so BPM defaults to 0) and one note line. -/
def chartNoBpm : Str := ("#GAP:0\n: 0 4 0 Hi").data

/-- Audio buffer whose first half stays above the 0.15 trim threshold and
whose only sub-threshold sample sits at index 8 of 10: a whole-buffer trim
scan (the claim) collapses it to an empty slice, while the source's
half-buffer scans keep an 8-sample periodic signal. -/
def trimBuf : List ℚ :=
  [1/2, -1/2, 1/2, -1/2, 1/2, -1/2, 1/2, -1/2, 1/10, 1/2]

/-- Raw chart lines before any player marker (used for the duet-filter
claim). -/
def preRaws : List Str := ["#BPM:200".data, ": 0 4 0 A".data, "- 4".data]

/-- Raw chart lines from the first player marker on. -/
def postRaws : List Str := ["P 2".data, ": 8 4 0 B".data, "E".data]

/-- The note parsed from `: 0 4 0 A` before the time pass. -/
def noteA : UltraStarNote :=
  { type := [':'], startBeat := JSNum.num 0, duration := JSNum.num 4
    pitch := JSNum.num 0, text := ['A'], isExtension := false }

/-- The line holding `noteA`, tagged player 1 by default. -/
def lineA : UltraStarLine :=
  { words := [⟨[noteA]⟩], player := some 1 }

/-- A concrete note for the scoring-session witness: pitch 60, one second
long, starting at time 0. -/
def witnessNote : ScoredNote :=
  { type := [':'], pitch := 60, startTime := 0, endTime := 1 }

/-- The note of `chartBpm200` after the time pass. -/
def noteHiTimed : UltraStarNote :=
  { type := [':'], startBeat := JSNum.num 0, duration := JSNum.num 4
    pitch := JSNum.num 0, text := ['H', 'i'], isExtension := false
    startTime := some (JSNum.num 0), endTime := some (JSNum.num (3/10)) }

/-- The word of `chartBpm200` after the time pass. -/
def wordHiTimed : UltraStarWord := { notes := [noteHiTimed] }

/-- The line of `chartBpm200` after the time pass. -/
def lineHiTimed : UltraStarLine :=
  { words := [wordHiTimed], startTime := some (JSNum.num 0)
    endTime := some (JSNum.num (3/10)), player := some 1 }

/-- Parser-state invariant: every produced line (and the line being built)
carries a concrete player tag 1 or 2. -/
def playersTagged (s : ParseState) : Prop :=
  (∀ l ∈ s.lines, l.player = some 1 ∨ l.player = some 2)
    ∧ (s.currentLine.player = some 1 ∨ s.currentLine.player = some 2)
    ∧ (s.currentPlayer = 1 ∨ s.currentPlayer = 2)

/-- Parser-state invariant holding while no player-switch line has been
seen: everything is tagged player 1. -/
def playerOne (s : ParseState) : Prop :=
  (∀ l ∈ s.lines, l.player = some 1)
    ∧ s.currentLine.player = some 1
    ∧ s.currentPlayer = 1

/-! ## Helper lemmas -/

theorem mem_insertStable {α} (le : α → α → Bool) (x a : α) :
    ∀ l : List α, a ∈ insertStable le x l ↔ a = x ∨ a ∈ l := by
  intro l
  induction l with
  | nil => simp [insertStable]
  | cons y ys ih =>
      simp only [insertStable]
      by_cases h : le y x = true
      · rw [if_pos h]
        simp only [List.mem_cons, ih]
        tauto
      · rw [if_neg h]
        simp only [List.mem_cons]

theorem mem_sortStable {α} (le : α → α → Bool) (l : List α) (a : α) :
    a ∈ sortStable le l ↔ a ∈ l := by
  suffices H : ∀ (l acc : List α),
      a ∈ l.foldl (fun acc x => insertStable le x acc) acc ↔ a ∈ acc ∨ a ∈ l by
    simpa [sortStable] using H l []
  intro l
  induction l with
  | nil => intro acc; simp
  | cons y ys ih =>
      intro acc
      simp only [List.foldl_cons, ih, mem_insertStable, List.mem_cons]
      tauto

theorem find?_range'_none (p : ℕ → Bool) :
    ∀ (n s : ℕ), (List.range' s n).find? p = none → ∀ i, s ≤ i → i < s + n → p i = false := by
  intro n
  induction n with
  | zero => intro s _ i h1 h2; omega
  | succ m ih =>
      intro s h i h1 h2
      rw [List.range'_succ] at h
      by_cases hp : p s
      · rw [List.find?_cons_of_pos _ hp] at h; exact absurd h (by simp)
      · rw [List.find?_cons_of_neg _ hp] at h
        rcases Nat.eq_or_lt_of_le h1 with rfl | hlt
        · exact Bool.eq_false_iff.mpr hp
        · exact ih (s + 1) h i hlt (by omega)

theorem find?_range'_some (p : ℕ → Bool) :
    ∀ (n s a : ℕ), (List.range' s n).find? p = some a →
      s ≤ a ∧ a < s + n ∧ p a = true ∧ ∀ j, s ≤ j → j < a → p j = false := by
  intro n
  induction n with
  | zero => intro s a h; exact absurd h (by simp)
  | succ m ih =>
      intro s a h
      rw [List.range'_succ] at h
      by_cases hp : p s
      · rw [List.find?_cons_of_pos _ hp] at h
        obtain rfl : s = a := by simpa using h
        exact ⟨le_refl s, by omega, hp, fun j h1 h2 => by omega⟩
      · rw [List.find?_cons_of_neg _ hp] at h
        obtain ⟨h1, h2, h3, h4⟩ := ih (s + 1) a h
        refine ⟨by omega, by omega, h3, fun j hj1 hj2 => ?_⟩
        rcases Nat.eq_or_lt_of_le hj1 with rfl | hlt
        · exact Bool.eq_false_iff.mpr hp
        · exact h4 j hlt hj2

theorem flushWord_lines (s : ParseState) : (flushWord s).lines = s.lines := by
  unfold flushWord; split_ifs <;> rfl

theorem flushWord_player (s : ParseState) :
    (flushWord s).currentLine.player = s.currentLine.player := by
  unfold flushWord; split_ifs <;> rfl

theorem flushWord_currentPlayer (s : ParseState) :
    (flushWord s).currentPlayer = s.currentPlayer := by
  unfold flushWord; split_ifs <;> rfl

theorem flushWord_metadata (s : ParseState) : (flushWord s).metadata = s.metadata := by
  unfold flushWord; split_ifs <;> rfl

theorem processLine_lines_append (s : ParseState) (l : Str) :
    ∃ t, (processLine s l).lines = s.lines ++ t := by
  unfold processLine flushWord
  dsimp only
  split_ifs <;>
    first
      | exact ⟨[], (List.append_nil _).symm⟩
      | exact ⟨_, rfl⟩

theorem foldl_processLine_lines_append (raws : List Str) :
    ∀ s : ParseState, ∃ t, (raws.foldl processLine s).lines = s.lines ++ t := by
  induction raws with
  | nil => intro s; exact ⟨[], (List.append_nil _).symm⟩
  | cons r rs ih =>
      intro s
      obtain ⟨t1, h1⟩ := processLine_lines_append s r
      obtain ⟨t2, h2⟩ := ih (processLine s r)
      refine ⟨t1 ++ t2, ?_⟩
      rw [List.foldl_cons, h2, h1, List.append_assoc]

theorem finishParse_lines_append (s : ParseState) :
    ∃ t, (finishParse s).lines = s.lines ++ t := by
  unfold finishParse flushWord
  dsimp only
  split_ifs <;>
    first
      | exact ⟨[], (List.append_nil _).symm⟩
      | exact ⟨_, rfl⟩

set_option maxHeartbeats 1000000 in
theorem processLine_playersTagged (s : ParseState) (l : Str)
    (h : playersTagged s) : playersTagged (processLine s l) := by
  obtain ⟨h1, h2, h3⟩ := h
  unfold playersTagged processLine flushWord
  dsimp only
  split_ifs <;>
    refine ⟨?_, ?_, ?_⟩ <;>
      first
        | exact h1
        | exact h2
        | exact h3
        | (simp; done)
        | (intro l' hl'
           rcases List.mem_append.mp hl' with hmem | hmem
           · exact h1 _ hmem
           · simp only [List.mem_cons, List.not_mem_nil, or_false] at hmem
             subst hmem
             simpa using h2)
        | (rcases h3 with h3 | h3 <;> simp [h3])

set_option maxHeartbeats 1000000 in
theorem processLine_playerOne (s : ParseState) (l : Str)
    (hps : isPSwitchLine l = false) (h : playerOne s) : playerOne (processLine s l) := by
  obtain ⟨h1, h2, h3⟩ := h
  unfold isPSwitchLine at hps
  unfold playerOne processLine flushWord
  dsimp only
  split_ifs <;>
    first
      | (exfalso; simp_all; done)
      | refine ⟨?_, ?_, ?_⟩ <;>
          first
            | exact h1
            | exact h2
            | exact h3
            | (simp [h3]; done)
            | (intro l' hl'
               rcases List.mem_append.mp hl' with hmem | hmem
               · exact h1 _ hmem
               · simp only [List.mem_cons, List.not_mem_nil, or_false] at hmem
                 subst hmem
                 simpa using h2)

theorem foldl_playersTagged (raws : List Str) :
    ∀ s : ParseState, playersTagged s → playersTagged (raws.foldl processLine s) := by
  induction raws with
  | nil => intro s h; exact h
  | cons r rs ih =>
      intro s h
      rw [List.foldl_cons]
      exact ih _ (processLine_playersTagged s r h)

set_option maxHeartbeats 1000000 in
theorem finishParse_playersTagged (s : ParseState)
    (h : playersTagged s) : playersTagged (finishParse s) := by
  obtain ⟨h1, h2, h3⟩ := h
  unfold playersTagged finishParse flushWord
  dsimp only
  split_ifs <;>
    refine ⟨?_, ?_, ?_⟩ <;>
      first
        | exact h1
        | exact h2
        | exact h3
        | (simp; done)
        | (intro l' hl'
           rcases List.mem_append.mp hl' with hmem | hmem
           · exact h1 _ hmem
           · simp only [List.mem_cons, List.not_mem_nil, or_false] at hmem
             subst hmem
             simpa using h2)

theorem foldl_playerOne (raws : List Str) :
    (∀ r ∈ raws, isPSwitchLine r = false) →
      ∀ s : ParseState, playerOne s → playerOne (raws.foldl processLine s) := by
  induction raws with
  | nil => intro _ s h; exact h
  | cons r rs ih =>
      intro hall s h
      rw [List.foldl_cons]
      exact ih (fun x hx => hall x (List.mem_cons_of_mem r hx)) _
        (processLine_playerOne s r (hall r (List.mem_cons_self r rs)) h)

theorem timeLine_player (bpm gap : JSNum) (l : UltraStarLine) :
    (timeLine bpm gap l).player = l.player := rfl

theorem timeNote_times (bpm gap : JSNum) (n : UltraStarNote) :
    (timeNote bpm gap n).startTime = some (noteTimeJS bpm gap n.startBeat)
      ∧ (timeNote bpm gap n).endTime =
          some (noteTimeJS bpm gap (JSNum.add n.startBeat n.duration))
      ∧ (timeNote bpm gap n).startBeat = n.startBeat
      ∧ (timeNote bpm gap n).duration = n.duration := ⟨rfl, rfl, rfl, rfl⟩

theorem accumStep_mono (s dt D : ℚ) (hdt : 0 ≤ dt) :
    s ≤ (if s < D then min (s + dt) D else s) := by
  split_ifs with h
  · exact le_min (by linarith) (le_of_lt h)
  · exact le_refl s

theorem tickNote_sung_mono (difficulty : String) (note : ScoredNote) (st : NoteState)
    (newTime dt : ℚ) (detected : Option ℚ) (hdt : 0 ≤ dt) :
    st.sungDuration ≤ (tickNote difficulty note st newTime dt detected).sungDuration := by
  unfold tickNote
  by_cases hsc : st.isScored = true
  · rw [if_pos hsc]
  · rw [if_neg hsc]
    dsimp only
    have key : ∀ st1 : NoteState, st.sungDuration ≤ st1.sungDuration →
        st.sungDuration ≤
          (if note.endTime + TRAILING_WINDOW < newTime then
            { st1 with isScored := true } else st1).sungDuration := by
      intro st1 h
      split_ifs <;> simpa
    apply key
    cases detected with
    | none => dsimp only; split_ifs <;> exact le_refl _
    | some p =>
        dsimp only
        split_ifs <;> (try dsimp only) <;>
          first
            | exact le_refl _
            | exact le_min (by linarith) (by linarith)

theorem tickNote_sung_le (difficulty : String) (note : ScoredNote) (st : NoteState)
    (newTime dt : ℚ) (detected : Option ℚ)
    (h : st.sungDuration ≤ note.endTime - note.startTime) :
    (tickNote difficulty note st newTime dt detected).sungDuration ≤
      note.endTime - note.startTime := by
  unfold tickNote
  by_cases hsc : st.isScored = true
  · rw [if_pos hsc]; exact h
  · rw [if_neg hsc]
    dsimp only
    have key : ∀ st1 : NoteState,
        st1.sungDuration ≤ note.endTime - note.startTime →
          (if note.endTime + TRAILING_WINDOW < newTime then
            { st1 with isScored := true } else st1).sungDuration ≤
            note.endTime - note.startTime := by
      intro st1 h1
      split_ifs <;> simpa
    apply key
    cases detected with
    | none => dsimp only; split_ifs <;> exact h
    | some p =>
        dsimp only
        split_ifs <;> (try dsimp only) <;>
          first
            | exact h
            | exact min_le_right _ _

theorem watchStep_sung_mono (difficulty : String) (note : ScoredNote)
    (acc : ℚ × NoteState) (sample : TickSample) :
    acc.2.sungDuration ≤ ((watchStep difficulty note acc sample).2).sungDuration := by
  unfold watchStep
  dsimp only
  split_ifs with h1 h2
  · exact le_refl _
  · exact le_refl _
  · exact tickNote_sung_mono _ _ _ _ _ _ (by rw [not_le] at h2; linarith)

theorem watchStep_sung_le (difficulty : String) (note : ScoredNote)
    (acc : ℚ × NoteState) (sample : TickSample)
    (h : acc.2.sungDuration ≤ note.endTime - note.startTime) :
    ((watchStep difficulty note acc sample).2).sungDuration ≤
      note.endTime - note.startTime := by
  unfold watchStep
  dsimp only
  split_ifs with h1 h2
  · exact h
  · exact h
  · exact tickNote_sung_le _ _ _ _ _ _ h

theorem foldl_watchStep_bounds (difficulty : String) (note : ScoredNote) :
    ∀ (samples : List TickSample) (acc : ℚ × NoteState),
      0 ≤ acc.2.sungDuration →
      acc.2.sungDuration ≤ note.endTime - note.startTime →
        0 ≤ (samples.foldl (watchStep difficulty note) acc).2.sungDuration
          ∧ (samples.foldl (watchStep difficulty note) acc).2.sungDuration ≤
              note.endTime - note.startTime := by
  intro samples
  induction samples with
  | nil => intro acc h1 h2; exact ⟨h1, h2⟩
  | cons x xs ih =>
      intro acc h1 h2
      rw [List.foldl_cons]
      exact ih _ (le_trans h1 (watchStep_sung_mono difficulty note acc x))
        (watchStep_sung_le difficulty note acc x h2)

/-! ## Claim theorems -/

unseal Rat.add Rat.mul Rat.sub Rat.inv in
/-- C1 counterexample: the claim asserts that parsing a chart with BPM=200,
GAP=0 and the note line `: 0 4 0 Hi` yields endTime = 0.6 s; the parser
actually computes endTime = (4 × 60) / (200 × 4) = 0.3 s, which is not
0.6 s. -/
theorem C1_counterexample :
    ((firstNote (parseUltraStar chartBpm200)).map UltraStarNote.endTime) =
        some (some (JSNum.num (3/10)))
      ∧ JSNum.num (3/10) ≠ JSNum.num (6/10) := by
  constructor
  · decide
  · decide

unseal Rat.add Rat.mul Rat.sub Rat.inv in
/-- C1 (amended): parsing a chart with BPM=200, GAP=0 and the note line
`: 0 4 0 Hi` yields a note with startTime = 0.0 s and
endTime = (4 × 60) / (200 × 4) = 0.3 s. -/
theorem C1_note_times :
    ((firstNote (parseUltraStar chartBpm200)).map
        (fun n => (n.startTime, n.endTime))) =
      some (some (JSNum.num 0), some (JSNum.num (3/10))) := by
  decide

unseal Rat.add Rat.mul Rat.sub Rat.inv in
/-- C2: the code does not guard the division by the beat rate.  On a chart
with no BPM metadata (BPM defaults to 0) and the note `: 0 4 0 Hi`, the
parser stores startTime = NaN (from 0/0) and endTime = +Infinity (from
240/0), both non-finite, contradicting the specified behaviour of treating
the times as unavailable. -/
theorem C2_unguarded_zero_bpm :
    ((firstNote (parseUltraStar chartNoBpm)).map
        (fun n => (n.startTime, n.endTime))) =
        some (some JSNum.nan, some JSNum.inf)
      ∧ JSNum.isFinite JSNum.nan = false
      ∧ JSNum.isFinite JSNum.inf = false := by
  refine ⟨?_, rfl, rfl⟩
  decide

unseal Rat.add Rat.mul Rat.sub Rat.inv in
/-- C7: feeding the raw MIDI values 60, 72, 61 into the smoothing filter (a
ring buffer of capacity 3 evicting the oldest value beyond capacity) makes
the filter output 61 on the third sample — the median of the buffered
values — and 61 is neither the transient 72 nor the mean (60+72+61)/3. -/
theorem C7_median_smoothing :
    runSmoother [60, 72, 61] = [60, 60, 61]
      ∧ (runSmoother [60, 72, 61]).getD 2 0 = 61
      ∧ (61 : ℚ) ≠ 72
      ∧ (61 : ℚ) ≠ (60 + 72 + 61) / 3 := by
  refine ⟨?_, ?_, ?_, ?_⟩ <;> decide

/-- C8: whenever the buffer's RMS is below 0.01 — stated on squares:
`meanSquare < (0.01)²`, which for a non-empty buffer is equivalent since
RMS = √meanSquare — `autoCorrelate` returns the no-pitch sentinel −1.  The
embedded definition takes this exit before the trim, autocorrelation and
interpolation stages. -/
theorem C8_rms_gate (buf : List ℚ) (sampleRate : ℚ) (hne : buf ≠ [])
    (h : meanSquare buf < 1/10000) :
    autoCorrelate buf sampleRate = JSNum.num (-1) := by
  have hlen : 0 < (buf.length : ℚ) := by
    have : buf.length ≠ 0 := fun hc => hne (List.length_eq_zero.mp hc)
    exact_mod_cast Nat.pos_of_ne_zero this
  have hgate : acGate buf = true := by
    unfold acGate
    rw [Bool.and_eq_true]
    constructor
    · simpa using fun hc => hne (List.length_eq_zero.mp hc)
    · rw [decide_eq_true_eq]
      unfold meanSquare at h
      rw [div_lt_iff₀ hlen] at h
      calc sumSq buf * 10000 = (1/10000 * (buf.length : ℚ)) * 10000 -
            (1/10000 * (buf.length : ℚ) - sumSq buf) * 10000 := by ring
        _ < (buf.length : ℚ) := by nlinarith
  unfold autoCorrelate
  rw [hgate]
  rfl

/-- C8 witness: the all-zero (silent) 4-sample buffer has mean square
0 < 1/10000, and `autoCorrelate` returns −1 on it. -/
theorem C8_rms_gate_witness :
    ([(0 : ℚ), 0, 0, 0] ≠ [])
      ∧ meanSquare [(0 : ℚ), 0, 0, 0] < 1/10000
      ∧ autoCorrelate [(0 : ℚ), 0, 0, 0] 44100 = JSNum.num (-1) :=
  ⟨by decide, by norm_num [meanSquare, sumSq],
    C8_rms_gate [(0 : ℚ), 0, 0, 0] 44100 (by decide) (by norm_num [meanSquare, sumSq])⟩

unseal Rat.add Rat.mul Rat.sub Rat.inv in
/-- C3 counterexample: on a 10-sample buffer that passes the RMS gate, whose
first half never drops below the 0.15 threshold and whose only
sub-threshold sample is at index 8, the source's half-buffer trim scans
keep an 8-sample signal and `autoCorrelate` returns a frequency (21600 Hz),
while the algorithm described by the claim — with scans covering the whole
buffer — trims everything away and returns −1.  The claim's description of
the trim therefore does not match the code. -/
theorem C3_counterexample :
    acGate trimBuf = false
      ∧ autoCorrelate trimBuf 44100 = JSNum.num 21600
      ∧ autoCorrelateClaim trimBuf 44100 = JSNum.num (-1)
      ∧ autoCorrelate trimBuf 44100 ≠ autoCorrelateClaim trimBuf 44100 := by
  refine ⟨?_, ?_, ?_, ?_⟩ <;> decide

/-- C3 (amended): when the RMS gate passes, the buffer is trimmed by
scanning forward for the first sample with `|x| < 0.15` — but only over the
first half of the buffer (indices `i < ⌈N/2⌉`), defaulting to `r1 = 0` —
and scanning backward from the end over offsets `1 ≤ i < ⌈N/2⌉`, defaulting
to `r2 = N − 1`; the buffer is re-sliced to the index range `[r1, r2)`
(`r2` exclusive), and if the trimmed length is < 2 the function returns the
no-pitch sentinel −1. -/
theorem C3_trim_halves (buf : List ℚ) (sampleRate : ℚ)
    (hgate : acGate buf = false) :
    ((|buf.getD (acR1 buf) 0| < 3/20 ∧ acR1 buf < acHalf buf.length
        ∧ ∀ i < acR1 buf, ¬(|buf.getD i 0| < 3/20))
      ∨ (acR1 buf = 0 ∧ ∀ i < acHalf buf.length, ¬(|buf.getD i 0| < 3/20)))
    ∧ ((∃ i, 1 ≤ i ∧ i < acHalf buf.length ∧ acR2 buf = buf.length - i
          ∧ |buf.getD (buf.length - i) 0| < 3/20
          ∧ ∀ j, 1 ≤ j → j < i → ¬(|buf.getD (buf.length - j) 0| < 3/20))
      ∨ (acR2 buf = buf.length - 1
          ∧ ∀ i, 1 ≤ i → i < acHalf buf.length → ¬(|buf.getD (buf.length - i) 0| < 3/20)))
    ∧ acTrim buf = (buf.take (acR2 buf)).drop (acR1 buf)
    ∧ ((acTrim buf).length < 2 → autoCorrelate buf sampleRate = JSNum.num (-1)) := by
  refine ⟨?_, ?_, rfl, ?_⟩
  · unfold acR1
    rcases hfind : (List.range (acHalf buf.length)).find?
        (fun i => decide (|buf.getD i 0| < 3/20)) with _ | i
    · right
      refine ⟨rfl, fun i hi => ?_⟩
      have := find?_range'_none (fun i => decide (|buf.getD i 0| < 3/20))
        (acHalf buf.length) 0 (by rwa [← List.range_eq_range']) i (Nat.zero_le i)
        (by omega)
      simpa using this
    · left
      obtain ⟨h1, h2, h3, h4⟩ := find?_range'_some (fun i => decide (|buf.getD i 0| < 3/20))
        (acHalf buf.length) 0 i (by rwa [← List.range_eq_range'])
      refine ⟨by simpa using h3, by simpa using h2, fun j hj => ?_⟩
      have := h4 j (Nat.zero_le j) (by simpa using hj)
      simpa using this
  · unfold acR2
    rcases hfind : (List.range' 1 (acHalf buf.length - 1)).find?
        (fun i => decide (|buf.getD (buf.length - i) 0| < 3/20)) with _ | i
    · right
      refine ⟨rfl, fun i hi1 hi2 => ?_⟩
      have := find?_range'_none (fun i => decide (|buf.getD (buf.length - i) 0| < 3/20))
        (acHalf buf.length - 1) 1 hfind i hi1 (by omega)
      simpa using this
    · left
      obtain ⟨h1, h2, h3, h4⟩ := find?_range'_some
        (fun i => decide (|buf.getD (buf.length - i) 0| < 3/20))
        (acHalf buf.length - 1) 1 i hfind
      refine ⟨i, h1, by omega, rfl, by simpa using h3, fun j hj1 hj2 => ?_⟩
      have := h4 j hj1 hj2
      simpa using this
  · intro hlen
    unfold autoCorrelate
    rw [hgate]
    simp only [Bool.false_eq_true, if_false]
    rw [if_pos hlen]

unseal Rat.add Rat.mul Rat.sub Rat.inv in
/-- C3 witness: a concrete 2-sample buffer passing the RMS gate whose trim
keeps a single sample, so `autoCorrelate` returns −1 by the
trimmed-too-short exit of the amended claim. -/
theorem C3_trim_halves_witness :
    acGate [(1 : ℚ)/2, 1/2] = false
      ∧ autoCorrelate [(1 : ℚ)/2, 1/2] 44100 = JSNum.num (-1) :=
  ⟨by decide, (C3_trim_halves [(1 : ℚ)/2, 1/2] 44100 (by decide)).2.2.2 (by decide)⟩

unseal Rat.add Rat.mul Rat.sub Rat.inv in
/-- C4 counterexample: the claim says the good tier awards 2/3 of the
points and the ok tier 1/3.  On Normal difficulty (20 points) the code
floors: a note of duration 1 s with 0.5 s sung lands in the good tier and
earns 13 points — not 2/3 × 20 = 40/3 — and 0.3 s sung lands in the ok tier
and earns 6 points — not 1/3 × 20 = 20/3. -/
theorem C4_counterexample :
    (scoreNote "Normal" [':'] 1 (1/2)).earned = 13
      ∧ (scoreNote "Normal" [':'] 1 (1/2)).feedback = some Grade.good
      ∧ (13 : ℚ) ≠ (2/3) * 20
      ∧ (scoreNote "Normal" [':'] 1 (3/10)).earned = 6
      ∧ (scoreNote "Normal" [':'] 1 (3/10)).feedback = some Grade.ok
      ∧ (6 : ℚ) ≠ (1/3) * 20 := by
  refine ⟨?_, ?_, ?_, ?_, ?_, ?_⟩ <;> decide

unseal Rat.add Rat.mul Rat.sub Rat.inv in
/-- C4 (amended): when a note is finalized under a non-Freestyle
difficulty, with percent = sungDuration / duration (duration guarded to 0.1
when non-positive), the engine awards the full points at the excellent
threshold — doubled and graded "perfect" when the note is golden —
`⌊points × 2/3⌋` when only the good threshold is cleared, `⌊points × 1/3⌋`
when only the ok threshold is cleared, and 0 otherwise; on Normal
difficulty a fully matched 1-second note earns +20 "excellent" (non-golden)
or +40 "perfect" (golden); and the finalization trigger fires once
currentTime exceeds endTime + 0.15 s. -/
theorem C4_scoring_floors :
    (∀ (difficulty : String) (type : Str) (noteDuration sungDuration : ℚ),
      difficulty ≠ "Freestyle" →
      ((scoringSettings difficulty).excellentT ≤
            sungDuration / (if 0 < noteDuration then noteDuration else 1/10) →
          isGoldenType type = true →
          scoreNote difficulty type noteDuration sungDuration =
            { earned := (scoringSettings difficulty).points * 2,
              feedback := some Grade.perfect })
      ∧ ((scoringSettings difficulty).excellentT ≤
            sungDuration / (if 0 < noteDuration then noteDuration else 1/10) →
          isGoldenType type = false →
          scoreNote difficulty type noteDuration sungDuration =
            { earned := (scoringSettings difficulty).points,
              feedback := some Grade.excellent })
      ∧ (sungDuration / (if 0 < noteDuration then noteDuration else 1/10) <
            (scoringSettings difficulty).excellentT →
          (scoringSettings difficulty).goodT ≤
            sungDuration / (if 0 < noteDuration then noteDuration else 1/10) →
          scoreNote difficulty type noteDuration sungDuration =
            { earned := ((⌊(scoringSettings difficulty).points * (2/3)⌋ : ℤ) : ℚ),
              feedback := some Grade.good })
      ∧ (sungDuration / (if 0 < noteDuration then noteDuration else 1/10) <
            (scoringSettings difficulty).excellentT →
          sungDuration / (if 0 < noteDuration then noteDuration else 1/10) <
            (scoringSettings difficulty).goodT →
          (scoringSettings difficulty).okT ≤
            sungDuration / (if 0 < noteDuration then noteDuration else 1/10) →
          scoreNote difficulty type noteDuration sungDuration =
            { earned := ((⌊(scoringSettings difficulty).points * (1/3)⌋ : ℤ) : ℚ),
              feedback := some Grade.ok })
      ∧ (sungDuration / (if 0 < noteDuration then noteDuration else 1/10) <
            (scoringSettings difficulty).okT →
          sungDuration / (if 0 < noteDuration then noteDuration else 1/10) <
            (scoringSettings difficulty).goodT →
          sungDuration / (if 0 < noteDuration then noteDuration else 1/10) <
            (scoringSettings difficulty).excellentT →
          scoreNote difficulty type noteDuration sungDuration =
            { earned := 0, feedback := none }))
    ∧ scoreNote "Normal" [':'] 1 1 = { earned := 20, feedback := some Grade.excellent }
    ∧ scoreNote "Normal" ['*'] 1 1 = { earned := 40, feedback := some Grade.perfect }
    ∧ (∀ (difficulty : String) (note : ScoredNote) (st : NoteState)
          (newTime dt : ℚ) (detected : Option ℚ),
        st.isScored = false → note.endTime + TRAILING_WINDOW < newTime →
          (tickNote difficulty note st newTime dt detected).isScored = true) := by
  refine ⟨?_, by decide, by decide, ?_⟩
  · intro difficulty type noteDuration sungDuration hd
    refine ⟨?_, ?_, ?_, ?_, ?_⟩
    · intro h1 h2
      unfold scoreNote
      rw [if_neg hd]
      dsimp only
      rw [if_pos h1, if_pos h2]
    · intro h1 h2
      unfold scoreNote
      rw [if_neg hd]
      dsimp only
      rw [if_pos h1, if_neg (by simp [h2])]
    · intro h1 h2
      unfold scoreNote
      rw [if_neg hd]
      dsimp only
      rw [if_neg (not_le.mpr h1), if_pos h2]
    · intro h1 h2 h3
      unfold scoreNote
      rw [if_neg hd]
      dsimp only
      rw [if_neg (not_le.mpr h1), if_neg (not_le.mpr h2), if_pos h3]
    · intro h1 h2 h3
      unfold scoreNote
      rw [if_neg hd]
      dsimp only
      rw [if_neg (not_le.mpr h3), if_neg (not_le.mpr h2), if_neg (not_le.mpr h1)]
  · intro difficulty note st newTime dt detected h1 h2
    unfold tickNote
    rw [if_neg (by simp [h1])]
    dsimp only
    rw [if_pos h2]

unseal Rat.add Rat.mul Rat.sub Rat.inv in
/-- C4 witness: applying the amended scoring theorem on Normal difficulty —
a half-sung 1-second note earns 13 points ("good"), a fully sung one earns
the claimed +20 ("excellent"). -/
theorem C4_scoring_floors_witness :
    scoreNote "Normal" [':'] 1 (1/2) = { earned := 13, feedback := some Grade.good }
      ∧ scoreNote "Normal" [':'] 1 1 =
          { earned := 20, feedback := some Grade.excellent } := by
  constructor
  · have h := ((C4_scoring_floors.1 "Normal" [':'] 1 (1/2) (by decide)).2.2.1
      (by decide) (by decide))
    rw [h]
    decide
  · exact C4_scoring_floors.2.1

/-- C5 counterexample: for Freestyle difficulty `finalRank` returns the
fixed string "FREESTYLE", which is not the string "Freestyle" the claim
states. -/
theorem C5_counterexample :
    finalRank "Freestyle" 0 100 = "FREESTYLE" ∧ "FREESTYLE" ≠ "Freestyle" :=
  ⟨rfl, by decide⟩

unseal Rat.add Rat.mul Rat.sub Rat.inv in
/-- C5 (amended): for a non-Freestyle difficulty with a non-zero total, the
rank is derived from percentage = score / totalMaxScore by the fixed bands
≥0.95→SS, ≥0.90→S, ≥0.80→A, ≥0.70→B, ≥0.60→C, ≥0.40→D, else F; a
percentage of 0.96 yields "SS" and 0.85 yields "A"; and for Freestyle
difficulty the reported rank is the fixed string "FREESTYLE" regardless of
any accumulated numbers. -/
theorem C5_rank_bands :
    (∀ (difficulty : String) (score total : ℚ),
      difficulty ≠ "Freestyle" → total ≠ 0 →
      (19/20 ≤ score / total → finalRank difficulty score total = "SS")
      ∧ (score / total < 19/20 → 9/10 ≤ score / total →
          finalRank difficulty score total = "S")
      ∧ (score / total < 9/10 → 4/5 ≤ score / total →
          finalRank difficulty score total = "A")
      ∧ (score / total < 4/5 → 7/10 ≤ score / total →
          finalRank difficulty score total = "B")
      ∧ (score / total < 7/10 → 3/5 ≤ score / total →
          finalRank difficulty score total = "C")
      ∧ (score / total < 3/5 → 2/5 ≤ score / total →
          finalRank difficulty score total = "D")
      ∧ (score / total < 2/5 → finalRank difficulty score total = "F"))
    ∧ (∀ (difficulty : String) (score total : ℚ),
        difficulty ≠ "Freestyle" → total ≠ 0 → score / total = 24/25 →
          finalRank difficulty score total = "SS")
    ∧ (∀ (difficulty : String) (score total : ℚ),
        difficulty ≠ "Freestyle" → total ≠ 0 → score / total = 17/20 →
          finalRank difficulty score total = "A")
    ∧ (∀ score total : ℚ, finalRank "Freestyle" score total = "FREESTYLE") := by
  have bands : ∀ (difficulty : String) (score total : ℚ),
      difficulty ≠ "Freestyle" → total ≠ 0 →
      (19/20 ≤ score / total → finalRank difficulty score total = "SS")
      ∧ (score / total < 19/20 → 9/10 ≤ score / total →
          finalRank difficulty score total = "S")
      ∧ (score / total < 9/10 → 4/5 ≤ score / total →
          finalRank difficulty score total = "A")
      ∧ (score / total < 4/5 → 7/10 ≤ score / total →
          finalRank difficulty score total = "B")
      ∧ (score / total < 7/10 → 3/5 ≤ score / total →
          finalRank difficulty score total = "C")
      ∧ (score / total < 3/5 → 2/5 ≤ score / total →
          finalRank difficulty score total = "D")
      ∧ (score / total < 2/5 → finalRank difficulty score total = "F") := by
    intro difficulty score total hd ht
    refine ⟨?_, ?_, ?_, ?_, ?_, ?_, ?_⟩
    · intro h1
      unfold finalRank
      rw [if_neg hd, if_neg ht]
      dsimp only
      rw [if_pos h1]
    · intro h1 h2
      unfold finalRank
      rw [if_neg hd, if_neg ht]
      dsimp only
      rw [if_neg (not_le.mpr h1), if_pos h2]
    · intro h1 h2
      unfold finalRank
      rw [if_neg hd, if_neg ht]
      dsimp only
      rw [if_neg (not_le.mpr (by linarith)), if_neg (not_le.mpr h1), if_pos h2]
    · intro h1 h2
      unfold finalRank
      rw [if_neg hd, if_neg ht]
      dsimp only
      rw [if_neg (not_le.mpr (by linarith)), if_neg (not_le.mpr (by linarith)),
        if_neg (not_le.mpr h1), if_pos h2]
    · intro h1 h2
      unfold finalRank
      rw [if_neg hd, if_neg ht]
      dsimp only
      rw [if_neg (not_le.mpr (by linarith)), if_neg (not_le.mpr (by linarith)),
        if_neg (not_le.mpr (by linarith)), if_neg (not_le.mpr h1), if_pos h2]
    · intro h1 h2
      unfold finalRank
      rw [if_neg hd, if_neg ht]
      dsimp only
      rw [if_neg (not_le.mpr (by linarith)), if_neg (not_le.mpr (by linarith)),
        if_neg (not_le.mpr (by linarith)), if_neg (not_le.mpr (by linarith)),
        if_neg (not_le.mpr h1), if_pos h2]
    · intro h1
      unfold finalRank
      rw [if_neg hd, if_neg ht]
      dsimp only
      rw [if_neg (not_le.mpr (by linarith)), if_neg (not_le.mpr (by linarith)),
        if_neg (not_le.mpr (by linarith)), if_neg (not_le.mpr (by linarith)),
        if_neg (not_le.mpr (by linarith)), if_neg (not_le.mpr h1)]
  refine ⟨bands, ?_, ?_, ?_⟩
  · intro difficulty score total hd ht hp
    exact (bands difficulty score total hd ht).1 (by rw [hp]; norm_num)
  · intro difficulty score total hd ht hp
    exact (bands difficulty score total hd ht).2.2.1 (by rw [hp]; norm_num)
      (by rw [hp]; norm_num)
  · intro score total
    unfold finalRank
    rw [if_pos rfl]

unseal Rat.add Rat.mul Rat.sub Rat.inv in
/-- C5 witness: 96/100 on Normal difficulty ranks "SS", 85/100 ranks "A",
and any Freestyle session ranks "FREESTYLE". -/
theorem C5_rank_bands_witness :
    finalRank "Normal" 96 100 = "SS"
      ∧ finalRank "Normal" 85 100 = "A"
      ∧ finalRank "Freestyle" 12 34 = "FREESTYLE" := by
  refine ⟨?_, ?_, C5_rank_bands.2.2.2 12 34⟩
  · exact C5_rank_bands.2.1 "Normal" 96 100 (by decide) (by decide) (by decide)
  · exact C5_rank_bands.2.2.1 "Normal" 85 100 (by decide) (by decide) (by decide)

/-- C6: for every parsed note, startTime = (startBeat × 60) / (bpm × 4) +
gap/1000 and endTime = ((startBeat + duration) × 60) / (bpm × 4) +
gap/1000, with bpm and gap read from the BPM and GAP metadata (comma
decimals normalized to dots — part of the `chartBpm`/`chartGap`
definitions); and for any non-zero bpm, raising GAP from 0 to 1000 ms
shifts a note's startTime by exactly +1 s. -/
theorem C6_time_formula :
    (∀ text : Str, ∀ l ∈ (parseUltraStar text).lines, ∀ w ∈ l.words,
      ∀ n ∈ w.notes,
        n.startTime = some (noteTimeJS (chartBpm text) (chartGap text) n.startBeat)
        ∧ n.endTime = some (noteTimeJS (chartBpm text) (chartGap text)
            (JSNum.add n.startBeat n.duration)))
    ∧ (∀ bpm beat : ℚ, bpm ≠ 0 →
        noteTimeJS (JSNum.num bpm) (JSNum.num 1000) (JSNum.num beat) =
          JSNum.add (noteTimeJS (JSNum.num bpm) (JSNum.num 0) (JSNum.num beat))
            (JSNum.num 1)) := by
  constructor
  · intro text l hl w hw n hn
    simp only [parseUltraStar, parseFromRaws] at hl
    rw [mem_sortStable] at hl
    obtain ⟨l0, hl0, rfl⟩ := List.mem_map.mp hl
    simp only [timeLine] at hw
    obtain ⟨w0, hw0, rfl⟩ := List.mem_map.mp hw
    simp only at hn
    obtain ⟨n0, hn0, rfl⟩ := List.mem_map.mp hn
    exact ⟨rfl, rfl⟩
  · intro bpm beat hbpm
    have h4 : (bpm * 4 : ℚ) ≠ 0 := mul_ne_zero hbpm (by norm_num)
    simp only [noteTimeJS, JSNum.mul, JSNum.div, JSNum.add, h4, if_false]
    norm_num

unseal Rat.add Rat.mul Rat.sub Rat.inv in
/-- C6 witness: the single note of the BPM=200/GAP=0 chart satisfies the
time formula, and with bpm 50 the GAP 0→1000 shift moves beat 4's startTime
by exactly +1 s. -/
theorem C6_time_formula_witness :
    noteHiTimed.startTime =
        some (noteTimeJS (chartBpm chartBpm200) (chartGap chartBpm200)
          noteHiTimed.startBeat)
      ∧ noteTimeJS (JSNum.num 50) (JSNum.num 1000) (JSNum.num 4) =
          JSNum.add (noteTimeJS (JSNum.num 50) (JSNum.num 0) (JSNum.num 4))
            (JSNum.num 1) := by
  constructor
  · exact (C6_time_formula.1 chartBpm200 lineHiTimed (by decide) wordHiTimed
      (by decide) noteHiTimed (by decide)).1
  · exact C6_time_formula.2 50 4 (by norm_num)

/-- C9: throughout a scoring session, a note's accumulated sungDuration is
non-decreasing across watcher ticks, and — for a note of non-negative
duration — stays within [0, endTime − startTime]: each per-tick
accumulation of dt is capped at the note's total duration. -/
theorem C9_sung_invariant :
    (∀ (difficulty : String) (note : ScoredNote) (acc : ℚ × NoteState)
        (sample : TickSample),
        acc.2.sungDuration ≤ ((watchStep difficulty note acc sample).2).sungDuration)
    ∧ (∀ (difficulty : String) (note : ScoredNote) (t0 : ℚ)
        (samples : List TickSample),
        0 ≤ note.endTime - note.startTime →
          0 ≤ (runSession difficulty note t0 samples).2.sungDuration
          ∧ (runSession difficulty note t0 samples).2.sungDuration ≤
              note.endTime - note.startTime) := by
  constructor
  · exact watchStep_sung_mono
  · intro difficulty note t0 samples hD
    exact foldl_watchStep_bounds difficulty note samples
      (t0, { sungDuration := 0, isScored := false }) le_rfl hD

unseal Rat.add Rat.mul Rat.sub Rat.inv in
/-- C9 witness: a 1-second note (duration ≥ 0) run over two concrete
matching ticks keeps its sungDuration within [0, 1]. -/
theorem C9_sung_invariant_witness :
    (0 : ℚ) ≤ witnessNote.endTime - witnessNote.startTime
      ∧ 0 ≤ (runSession "Normal" witnessNote 0
          [{ isPlaying := true, newTime := 1/2, detected := some 60 },
           { isPlaying := true, newTime := 2, detected := some 60 }]).2.sungDuration
      ∧ (runSession "Normal" witnessNote 0
          [{ isPlaying := true, newTime := 1/2, detected := some 60 },
           { isPlaying := true, newTime := 2, detected := some 60 }]).2.sungDuration ≤
          witnessNote.endTime - witnessNote.startTime := by
  have h := C9_sung_invariant.2 "Normal" witnessNote 0
    [{ isPlaying := true, newTime := 1/2, detected := some 60 },
     { isPlaying := true, newTime := 2, detected := some 60 }] (by decide)
  exact ⟨by decide, h.1, h.2⟩

/-- C10: every line the parser outputs carries a concrete player tag 1 or 2
(lines before any P marker default to player 1): any raw-line prefix free
of player switches produces only player-1 lines, whose timed images appear
in the final parse; and a player-1 line contributes no notes to a session
filtered to player 2. -/
theorem C10_player_tags :
    (∀ text : Str, ∀ l ∈ (parseUltraStar text).lines,
        l.player = some 1 ∨ l.player = some 2)
    ∧ (∀ pre post : List Str, (∀ r ∈ pre, isPSwitchLine r = false) →
        ∀ l ∈ (List.foldl processLine initState pre).lines,
          l.player = some 1
          ∧ timeLine (rawsBpm (pre ++ post)) (rawsGap (pre ++ post)) l ∈
              (parseFromRaws (pre ++ post)).lines
          ∧ (timeLine (rawsBpm (pre ++ post)) (rawsGap (pre ++ post)) l).player =
              some 1)
    ∧ (∀ l : UltraStarLine, l.player = some 1 → allNotes (some 2) [l] = []) := by
  refine ⟨?_, ?_, ?_⟩
  · intro text l hl
    simp only [parseUltraStar, parseFromRaws] at hl
    rw [mem_sortStable] at hl
    obtain ⟨l0, hl0, rfl⟩ := List.mem_map.mp hl
    rw [timeLine_player]
    have hinit : playersTagged initState :=
      ⟨fun l h => absurd h (List.not_mem_nil l), Or.inl rfl, Or.inl rfl⟩
    exact (finishParse_playersTagged _ (foldl_playersTagged _ initState hinit)).1 l0 hl0
  · intro pre post hps l hl
    have hinit : playerOne initState :=
      ⟨fun l h => absurd h (List.not_mem_nil l), rfl, rfl⟩
    have hone := foldl_playerOne pre hps initState hinit
    have hp1 : l.player = some 1 := hone.1 l hl
    refine ⟨hp1, ?_, by rw [timeLine_player]; exact hp1⟩
    show timeLine (rawsBpm (pre ++ post)) (rawsGap (pre ++ post)) l ∈
      sortStable lineLe
        (((finishParse ((pre ++ post).foldl processLine initState)).lines).map
          (timeLine (rawsBpm (pre ++ post)) (rawsGap (pre ++ post))))
    rw [mem_sortStable]
    apply List.mem_map_of_mem
    rw [List.foldl_append]
    obtain ⟨t2, ht2⟩ :=
      foldl_processLine_lines_append post (List.foldl processLine initState pre)
    obtain ⟨t3, ht3⟩ :=
      finishParse_lines_append
        (List.foldl processLine (List.foldl processLine initState pre) post)
    rw [ht3, ht2]
    exact List.mem_append_left _ (List.mem_append_left _ hl)
  · intro l hp
    have hk : keepLine (some 2) l = false := by
      unfold keepLine
      rw [hp]
      decide
    unfold allNotes
    rw [show ([l].filter (keepLine (some 2))) = [] from by simp [List.filter, hk]]
    rfl

unseal Rat.add Rat.mul Rat.sub Rat.inv in
/-- C10 witness: the chart prefix `#BPM:200 / : 0 4 0 A / - 4` contains no
player switch; its line is tagged player 1, its timed image is in the full
parse of the prefix followed by a `P 2` block, and that line contributes
nothing to a player-2 session. -/
theorem C10_player_tags_witness :
    timeLine (rawsBpm (preRaws ++ postRaws)) (rawsGap (preRaws ++ postRaws)) lineA ∈
        (parseFromRaws (preRaws ++ postRaws)).lines
      ∧ (timeLine (rawsBpm (preRaws ++ postRaws)) (rawsGap (preRaws ++ postRaws))
            lineA).player = some 1
      ∧ allNotes (some 2)
          [timeLine (rawsBpm (preRaws ++ postRaws)) (rawsGap (preRaws ++ postRaws))
            lineA] = [] := by
  have h := C10_player_tags.2.1 preRaws postRaws (by decide) lineA (by decide)
  exact ⟨h.2.1, h.2.2, C10_player_tags.2.2 _ h.2.2⟩
